import Mathlib

/-!
Formal model of the WebScrapper crawl orchestration and extraction engine
(src/backend/src/services/scraper.service.js), as a shallow embedding.

String values are modelled as Lean `String`; all string utilities below are
implemented by structural recursion over `List Char` so that every definition
evaluates inside the kernel.  JavaScript string `length` counts UTF-16 code
units while `List Char` counts code points; the two agree on the material the
claims exercise (BMP text).
-/

/-- Lowercase every character of a string (model of JS `toLowerCase` /
case-insensitive regex matching, adequate for ASCII patterns). -/
def strLower (s : String) : String := String.mk (s.data.map Char.toLower)

/-- Drop leading and trailing whitespace from a character list. -/
def chTrim (l : List Char) : List Char :=
  ((l.dropWhile Char.isWhitespace).reverse.dropWhile Char.isWhitespace).reverse

/-- Model of JS `String.prototype.trim`. -/
def strTrim (s : String) : String := String.mk (chTrim s.data)

/-- Model of JS `String.prototype.length` (code points; see header note). -/
def strLen (s : String) : Nat := s.data.length

/-- Does the second character list start with the first? -/
def startsL : List Char → List Char → Bool
  | [], _ => true
  | _ :: _, [] => false
  | p :: ps, c :: cs => p == c && startsL ps cs

/-- Does the pattern (first argument) occur anywhere in the second list? -/
def occursChs : List Char → List Char → Bool
  | pat, [] => startsL pat []
  | pat, c :: cs => startsL pat (c :: cs) || occursChs pat cs

/-- Model of JS `String.prototype.includes` (substring test). -/
def strHas (s pat : String) : Bool := occursChs pat.data s.data

/-- Case-insensitive substring test (model of an unanchored `/pat/i` regex). -/
def strHasCI (s pat : String) : Bool := strHas (strLower s) (strLower pat)

/-- Model of JS `String.prototype.startsWith`. -/
def strStarts (s pat : String) : Bool := startsL pat.data s.data

/-- Model of JS `String.prototype.endsWith`. -/
def strEnds (s pat : String) : Bool := startsL pat.data.reverse s.data.reverse

/-- Split a character list at every occurrence of the separator. -/
def splitChs (sep : Char) : List Char → List Char → List String
  | [], acc => [String.mk acc.reverse]
  | c :: cs, acc =>
    if c == sep then String.mk acc.reverse :: splitChs sep cs []
    else splitChs sep cs (c :: acc)

/-- Model of JS `String.prototype.split('/')`. -/
def splitSlash (s : String) : List String := splitChs ('/' : Char) s.data []

/-!
URL model.  The scraper relies on the WHATWG `new URL(input, base)`
constructor (Node `url` module).  We model the subset it exercises: absolute
`http(s)://host/path?query#frag` URLs, opaque-scheme URLs (`mailto:`, `tel:`,
`javascript:` …), and relative resolution of protocol-relative, path-absolute,
query-only, fragment-only and plain relative references against an absolute
http(s) base.  Dot-segment normalisation and host normalisation are not
modelled (no claim exercises them).
-/

/-- A parsed URL: either a special (http/https) URL with an authority, or an
opaque-scheme URL such as `mailto:addr`. -/
inductive UrlM where
  | web (scheme host path query frag : String) : UrlM
  | other (scheme rest : String) : UrlM
deriving DecidableEq

/-- Serialisation, model of the WHATWG `href` getter (http(s) URLs always
serialise with at least the path `/`). -/
def UrlM.href : UrlM → String
  | .web sc h p q f => sc ++ "://" ++ h ++ (if p = "" then "/" else p) ++ q ++ f
  | .other sc r => sc ++ ":" ++ r

/-- Model of the `host` getter (empty for opaque-scheme URLs). -/
def UrlM.host : UrlM → String
  | .web _ h _ _ _ => h
  | .other _ _ => ""

/-- Model of the `pathname` getter. -/
def UrlM.pathname : UrlM → String
  | .web _ _ p _ _ => if p = "" then "/" else p
  | .other _ r => r

/-- Model of the `protocol` getter (scheme followed by a colon). -/
def UrlM.protocol : UrlM → String
  | .web sc _ _ _ _ => sc ++ ":"
  | .other sc _ => sc ++ ":"

/-- Is this character allowed in a URL scheme after the first position? -/
def schemeChar (c : Char) : Bool :=
  c.isAlpha || c.isDigit || c == '+' || c == '-' || c == '.'

/-- Split `scheme:rest` when the string begins with a syntactically valid
scheme; otherwise `none`. -/
def schemeSplit (s : String) : Option (String × String) :=
  let cs := s.data
  let pre := cs.takeWhile schemeChar
  let post := cs.drop pre.length
  match post with
  | c :: rest =>
    if c == ':' && !pre.isEmpty && (match pre with | a :: _ => a.isAlpha | [] => false)
    then some (String.mk pre, String.mk rest)
    else none
  | [] => none

/-- Is the character a URL authority delimiter? -/
def authDelim (c : Char) : Bool := c == '/' || c == '?' || c == '#'

/-- Split the part of a URL after the authority into path, query (with `?`)
and fragment (with `#`). -/
def pathQF (cs : List Char) : String × String × String :=
  let beforeF := cs.takeWhile (fun c => !(c == '#'))
  let fragPart := cs.dropWhile (fun c => !(c == '#'))
  let pathPart := beforeF.takeWhile (fun c => !(c == '?'))
  let queryPart := beforeF.dropWhile (fun c => !(c == '?'))
  (String.mk pathPart, String.mk queryPart, String.mk fragPart)

/-- Parse the authority-and-after of a special URL (`host/path?q#f`). -/
def parseAuthority (scheme : String) (cs : List Char) : Option UrlM :=
  let host := cs.takeWhile (fun c => !authDelim c)
  let tail := cs.dropWhile (fun c => !authDelim c)
  if host.isEmpty then none
  else
    let (p, q, f) := pathQF tail
    some (.web scheme (String.mk host) p q f)

/-- Parse an absolute URL (model of `new URL(input)` with no base): http(s)
URLs get an authority, every other valid scheme is kept opaque, anything
else fails (the JS constructor throws). -/
def parseAbs (s : String) : Option UrlM :=
  match schemeSplit s with
  | none => none
  | some (sc, rest) =>
    let scl := strLower sc
    if scl == "http" || scl == "https" then
      if strStarts rest "//" then parseAuthority scl (rest.data.drop 2)
      else none
    else some (.other scl rest)

/-- The directory part of a path: everything up to and including the last
slash, defaulting to `/` (used for relative-reference resolution). -/
def dirOf (p : String) : String :=
  let rcs := p.data.reverse
  let after := rcs.dropWhile (fun c => !(c == '/'))
  match after with
  | [] => "/"
  | _ => String.mk after.reverse

/-- Model of `new URL(input, base)` for an http(s) base: absolute inputs are
parsed outright; otherwise the reference is resolved against the base.
Opaque bases reject every relative reference. -/
def resolveUrlM (input : String) (base : UrlM) : Option UrlM :=
  match parseAbs input with
  | some u => some u
  | none =>
    match base with
    | .other _ _ => none
    | .web sc h p q _ =>
      if input = "" then some (.web sc h p q "")
      else if strStarts input "//" then parseAuthority sc (input.data.drop 2)
      else if strStarts input "#" then some (.web sc h p q input)
      else if strStarts input "?" then some (.web sc h p input "")
      else if strStarts input "/" then
        let (p2, q2, f2) := pathQF input.data
        some (.web sc h p2 q2 f2)
      else
        let (p2, q2, f2) := pathQF input.data
        some (.web sc h (dirOf p ++ p2) q2 f2)





/-!
Parsed-markup model.  `cheerio.load(html)` yields a document the service
queries with tag and class selectors; we model the parsed document directly
as a forest of nodes (`Doc`).  Selector traversal is in document order
(pre-order), matching cheerio.
-/

/-- A DOM node: a text node or an element with a tag, attributes and
children. -/
inductive Node where
  | text (s : String) : Node
  | elem (tag : String) (attrs : List (String × String)) (children : List Node) : Node

/-- A parsed document: the forest of top-level nodes. -/
def Doc := List Node

/-- First value of the named attribute, model of cheerio `attr` on a single
element (absent attribute is JS `undefined`, modelled as `none`). -/
def attrOf (attrs : List (String × String)) (k : String) : Option String :=
  match attrs.find? (fun kv => kv.fst == k) with
  | some kv => some kv.snd
  | none => none

/-- The attribute lookup lifted to a node (text nodes have no attributes). -/
def nodeAttr (n : Node) (k : String) : Option String :=
  match n with
  | .text _ => none
  | .elem _ a _ => attrOf a k

/-- The tag of a node (empty for text nodes). -/
def tagOf : Node → String
  | .text _ => ""
  | .elem tg _ _ => tg

mutual
/-- Concatenated descendant text of a node, model of cheerio `text()`. -/
def nodeText : Node → String
  | .text s => s
  | .elem _ _ cs => forestText cs
/-- Concatenated text of a forest, in document order. -/
def forestText : List Node → String
  | [] => ""
  | n :: ns => nodeText n ++ forestText ns
end

mutual
/-- Elements (as whole subtrees) whose tag and attributes satisfy `p`, in
document order, model of a cheerio selector query. -/
def nodeElems (p : String → List (String × String) → Bool) : Node → List Node
  | .text _ => []
  | .elem tg a cs =>
    (if p tg a then [Node.elem tg a cs] else []) ++ forestElems p cs
/-- The selector query over a forest, in document order. -/
def forestElems (p : String → List (String × String) → Bool) : List Node → List Node
  | [] => []
  | n :: ns => nodeElems p n ++ forestElems p ns
end

/-- All elements with the given tag, in document order. -/
def taggedElems (t : String) (d : Doc) : List Node :=
  forestElems (fun tg _ => tg == t) d

/-- The whitespace-separated class tokens of an attribute list. -/
def classTokens (attrs : List (String × String)) : List String :=
  match attrOf attrs "class" with
  | none => []
  | some c => (splitChs (' ' : Char) c.data []).filter (fun s => s ≠ "")

/-- Does the element match the removal selector
`script, style, nav, footer, header, aside, .nav, .footer, .header, .sidebar`
of `extractContent` (scraper.service.js line 516)? -/
def chromeMatch (tg : String) (attrs : List (String × String)) : Bool :=
  ["script", "style", "nav", "footer", "header", "aside"].contains tg ||
  (classTokens attrs).any (fun c =>
    c == "nav" || c == "footer" || c == "header" || c == "sidebar")

mutual
/-- Remove every subtree rooted at an element matching `p`, model of
cheerio `$(selector).remove()`. -/
def pruneNode (p : String → List (String × String) → Bool) : Node → Option Node
  | .text s => some (.text s)
  | .elem tg a cs =>
    if p tg a then none else some (.elem tg a (pruneForest p cs))
/-- The removal over a forest. -/
def pruneForest (p : String → List (String × String) → Bool) : List Node → List Node
  | [] => []
  | n :: ns =>
    match pruneNode p n with
    | none => pruneForest p ns
    | some m => m :: pruneForest p ns
end

/-- The document after `extractContent`'s structural removal. -/
def pruneChrome (d : Doc) : Doc := pruneForest chromeMatch d

/-!
Error and result data model.  `AppError` lives in
src/backend/src/utils/AppError.js, which is not part of the provided source
tree; per the spec it is the tagged domain error carrying
`(message, statusCode)` and recognised by `instanceof` checks.  Raw
(transport-level) JS errors carry a message, an optional `code` property
(`ENOTFOUND`, `ECONNREFUSED`, …) and an optional `error.response.status`.
-/

/-- Modelled from the spec: an error value flowing through the service — an
`AppError` (domain error with message and HTTP-style status hint, the class
in src/backend/src/utils/AppError.js which is absent from src/) or a raw
transport/runtime error with optional `code` and response status. -/
inductive JsError where
  | appError (message : String) (statusCode : Nat) : JsError
  | rawError (message : String) (code : Option String) (responseStatus : Option Nat) : JsError
deriving DecidableEq

/-- The `error.response?.status` access used by `crawlPages`. -/
def respStatusOf : JsError → Option Nat
  | .appError _ _ => none
  | .rawError _ _ rs => rs

/-- A heading record `{ level, text }`. -/
structure Heading where
  level : String
  text : String
deriving DecidableEq

/-- An image record `{ src, alt }`. -/
structure Image where
  src : String
  alt : String
deriving DecidableEq

/-- The per-page result assembled by `scrapePage` (the adapter additionally
attaches a `leetcodeData` payload, which no claim mentions and which is not
modelled). -/
structure PageData where
  url : String
  fullUrl : String
  title : String
  metaDescription : String
  headings : List Heading
  content : List String
  images : List Image
  internalLinks : List String
  externalLinks : List String
deriving DecidableEq

/-- The terminal output of one crawl job. -/
structure SiteResult where
  siteTitle : String
  baseUrl : String
  scrapedAt : String
  totalPages : Nat
  pages : List PageData
deriving DecidableEq

/-- JS `a || b` over optional strings: the left value when present and
non-empty (truthy), otherwise the right. -/
def jsOr (a b : Option String) : Option String :=
  match a with
  | some s => if s = "" then b else some s
  | none => b

/-- Model of `extractTitle` (lines 483-487): first `title` text, else first
`h1` text, else the placeholder. -/
def extractTitle (d : Doc) : String :=
  let t1 :=
    match taggedElems "title" d with
    | [] => ""
    | n :: _ => strTrim (nodeText n)
  if t1 ≠ "" then t1
  else
    let t2 :=
      match taggedElems "h1" d with
      | [] => ""
      | n :: _ => strTrim (nodeText n)
    if t2 ≠ "" then t2 else "Untitled Page"

/-- The `content` attribute of the first `meta` element carrying the given
key/value attribute pair. -/
def metaContent (key val : String) (d : Doc) : Option String :=
  match forestElems (fun tg a => tg == "meta" && attrOf a key == some val) d with
  | [] => none
  | n :: _ => nodeAttr n "content"

/-- Model of `extractMetaDescription` (lines 489-493). -/
def extractMetaDescription (d : Doc) : String :=
  (jsOr ((metaContent "name" "description" d).map strTrim)
    ((metaContent "property" "og:description" d).map strTrim)).getD ""

/-- Model of `extractHeadings` (lines 495-511): `h1/h2/h3` elements with
non-empty trimmed text shorter than 500, in document order, first 50. -/
def extractHeadings (d : Doc) : List Heading :=
  ((forestElems (fun tg _ => tg == "h1" || tg == "h2" || tg == "h3") d).filterMap
    (fun n =>
      let t := strTrim (nodeText n)
      if t ≠ "" ∧ 0 < strLen t ∧ strLen t < 500 then some ⟨tagOf n, t⟩ else none)).take 50

/-- The paragraph scan of `extractContent` (lines 518-526), applied to an
already-pruned document: trimmed `p` texts with length strictly between 20
and 5000, first 100. -/
def contentParagraphs (d : Doc) : List String :=
  ((taggedElems "p" d).filterMap
    (fun n =>
      let t := strTrim (nodeText n)
      if t ≠ "" ∧ 20 < strLen t ∧ strLen t < 5000 then some t else none)).take 100

/-- Model of `extractContent` (lines 513-527): structural removal of
script/style/nav/footer/header/aside and `.nav/.footer/.header/.sidebar`
elements, then the paragraph scan.  (In `scrapePage` the removal mutates the
shared document, see `buildPageData`.) -/
def extractContent (d : Doc) : List String :=
  contentParagraphs (pruneChrome d)

/-- Model of `isTrackingPixel` (lines 556-567): case-insensitive substring
match on pixel/tracker/beacon/1x1/spacer or a `.gif` suffix. -/
def isTrackingPixel (url : String) : Bool :=
  strHasCI url "pixel" || strHasCI url "tracker" || strHasCI url "beacon" ||
  strHasCI url "1x1" || strHasCI url "spacer" || strEnds (strLower url) ".gif"

/-- The `img` traversal of `extractImages` (lines 533-551): effective source
is `src` falling back to `data-src` (JS truthiness), duplicates by raw
attribute value dropped, resolution against the page URL, tracking pixels
excluded. -/
def imagesLoop (pu : UrlM) : List Node → List String → List Image → List Image
  | [], _, acc => acc
  | n :: ns, seen, acc =>
    match jsOr (nodeAttr n "src") (nodeAttr n "data-src") with
    | none => imagesLoop pu ns seen acc
    | some src =>
      if src = "" then imagesLoop pu ns seen acc
      else if seen.contains src then imagesLoop pu ns seen acc
      else
        match resolveUrlM src pu with
        | none => imagesLoop pu ns seen acc
        | some u =>
          if isTrackingPixel u.href then imagesLoop pu ns seen acc
          else imagesLoop pu ns (src :: seen)
            (acc ++ [⟨u.href, strTrim ((nodeAttr n "alt").getD "")⟩])

/-- Model of `extractImages` (lines 529-554). -/
def extractImages (d : Doc) (pu : UrlM) : List Image :=
  (imagesLoop pu (taggedElems "img" d) [] []).take 50

/-- Model of `isValidPageLink` (lines 620-644). -/
def isValidPageLink (path : String) : Bool :=
  let low := strLower path
  let badExt := ([".pdf", ".doc", ".docx", ".xls", ".xlsx",
    ".jpg", ".jpeg", ".png", ".gif", ".svg", ".webp",
    ".mp3", ".mp4", ".avi", ".mov",
    ".zip", ".rar", ".tar", ".gz"]).any (fun e => strEnds low e)
  let badPat := strStarts path "#" || strStarts low "mailto:" ||
    strStarts low "tel:" || strStarts low "javascript:"
  !badExt && !badPat

/-- Anchors carrying an `href` attribute (`$('a[href]')`), document order. -/
def anchorsWithHref (d : Doc) : List Node :=
  forestElems (fun tg a => tg == "a" && (attrOf a "href").isSome) d

/-- Keep the first occurrence of each element, model of
`[...new Set(list)]`. -/
def dedupFirstAux : List String → List String → List String
  | [], _ => []
  | x :: xs, seen =>
    if seen.contains x then dedupFirstAux xs seen
    else x :: dedupFirstAux xs (x :: seen)

/-- Insertion-order deduplication. -/
def dedupFirst (l : List String) : List String := dedupFirstAux l []

/-- The anchor traversal of `extractInternalLinks` (lines 573-591): resolve
each unseen non-empty `href` against the page URL; same-host targets whose
pathname passes `isValidPageLink` contribute their pathname. -/
def internalLoop (pu : UrlM) (domain : String) :
    List Node → List String → List String → List String
  | [], _, acc => acc
  | n :: ns, seen, acc =>
    match nodeAttr n "href" with
    | none => internalLoop pu domain ns seen acc
    | some href =>
      if href = "" then internalLoop pu domain ns seen acc
      else if seen.contains href then internalLoop pu domain ns seen acc
      else
        match resolveUrlM href pu with
        | none => internalLoop pu domain ns seen acc
        | some u =>
          if u.host = domain then
            if isValidPageLink u.pathname then
              internalLoop pu domain ns (href :: seen) (acc ++ [u.pathname])
            else internalLoop pu domain ns seen acc
          else internalLoop pu domain ns seen acc

/-- Model of `extractInternalLinks` (lines 569-594). -/
def extractInternalLinks (d : Doc) (pu : UrlM) (domain : String) : List String :=
  (dedupFirst (internalLoop pu domain (anchorsWithHref d) [] [])).take 100

/-- The anchor traversal of `extractExternalLinks` (lines 600-615): resolve
each unseen non-empty `href`; targets on a different host with an http(s)
protocol contribute their `href` serialisation. -/
def externalLoop (pu : UrlM) (domain : String) :
    List Node → List String → List String → List String
  | [], _, acc => acc
  | n :: ns, seen, acc =>
    match nodeAttr n "href" with
    | none => externalLoop pu domain ns seen acc
    | some href =>
      if href = "" then externalLoop pu domain ns seen acc
      else if seen.contains href then externalLoop pu domain ns seen acc
      else
        match resolveUrlM href pu with
        | none => externalLoop pu domain ns seen acc
        | some u =>
          if u.host ≠ domain ∧ (u.protocol = "http:" ∨ u.protocol = "https:") then
            externalLoop pu domain ns (href :: seen) (acc ++ [u.href])
          else externalLoop pu domain ns seen acc

/-- Model of `extractExternalLinks` (lines 596-618). -/
def extractExternalLinks (d : Doc) (pu : UrlM) (domain : String) : List String :=
  (externalLoop pu domain (anchorsWithHref d) [] []).take 50

/-- Model of the extraction pipeline of `scrapePage` (lines 336-351).  The
pipeline shares one parsed document: `extractContent` structurally removes
the chrome elements from it, so the subsequent image and link extraction
run on the pruned document, while title, meta description and headings were
extracted before the mutation. -/
def buildPageData (domain : String) (pu : UrlM) (url : String) (d : Doc) : PageData :=
  let d2 := pruneChrome d
  { url := pu.pathname
    fullUrl := url
    title := extractTitle d
    metaDescription := extractMetaDescription d
    headings := extractHeadings d
    content := contentParagraphs d2
    images := extractImages d2 pu
    internalLinks := extractInternalLinks d2 pu domain
    externalLinks := extractExternalLinks d2 pu domain }

/-!
Retrieval strategies and crawl orchestration (scraper.service.js
lines 211-481).  Network and browser behaviour is an oracle supplied by the
environment: for each URL the static (axios) strategy sees either a response
(content type, body, and that body's parse) or a thrown transport error, and
the rendered (puppeteer) strategy sees either final page content or a thrown
error.  The body of a response and its parsed document are supplied together
because the HTML parser itself is not modelled.
-/

/-- Outcome of the single `axios.get` in `scrapeWithAxios`: a response with
content type, body and the body's parse, or a thrown transport error. -/
inductive AxiosOutcome where
  | response (contentType : String) (body : String) (doc : Doc) : AxiosOutcome
  | failure (e : JsError) : AxiosOutcome

/-- Outcome of puppeteer navigation in `scrapeWithPuppeteer` (given an
available browser): final page content and its parse, or a thrown error. -/
inductive PuppetOutcome where
  | content (body : String) (doc : Doc) : PuppetOutcome
  | failure (e : JsError) : PuppetOutcome

/-- Outcome of the one LeetCode GraphQL POST: `matchedUser` payload (absent
user modelled as `none`) or a thrown transport error. -/
structure LCProfile where
  aboutMe : String
  userAvatar : String
  company : String
  school : String
  countryName : String
  websites : List String
  reputation : Nat
  ranking : Nat

/-- One entry of `submitStats.acSubmissionNum`. -/
structure LCStat where
  difficulty : String
  count : Nat
  submissions : Nat

/-- The `matchedUser` payload; JS-absent string fields are modelled as the
empty string (falsy), an absent `profile` object as the all-empty profile
(`userData.profile || {}`). -/
structure LCUser where
  username : String
  profile : LCProfile
  stats : List LCStat

/-- The GraphQL API oracle. -/
inductive LCApi where
  | success (user : Option LCUser) : LCApi
  | failure (e : JsError) : LCApi

/-- The per-job environment: the network/browser oracles and the service
options.  `maxPagesOpt` is the raw constructor option
(`options.maxPages || 5`, see `effMaxPages`); `browserAvailable` models
whether `getBrowser` can produce a browser (lines 66-79). -/
structure CrawlEnv where
  staticFetch : String → AxiosOutcome
  puppet : String → PuppetOutcome
  browserAvailable : Bool
  lcApi : LCApi
  maxPagesOpt : Nat
  now : String

/-- The effective page cap `options.maxPages || 5` of the constructor
(line 24): a falsy (zero) option falls back to 5. -/
def effMaxPages (opt : Nat) : Nat := if opt = 0 then 5 else opt

/-- The Cloudflare-challenge body test of `scrapeWithAxios` (lines 383-386). -/
def cfMarkers (body : String) : Bool :=
  strHas body "cf-browser-verification" || strHas body "cf_clearance" ||
  strHas body "Checking your browser" || strHas body "Just a moment..."

/-- The blocked/challenge body test of `scrapeWithPuppeteer` (lines 465-468).
A positive test only makes the browser wait longer; the markup is returned
either way (lines 469-476). -/
def puppetBlockMarkers (body : String) : Bool :=
  strHas body "Checking your browser" || strHas body "Just a moment..." ||
  strHas body "Access Denied" || strHas body "403 Forbidden"

/-- Model of `scrapeWithAxios` (lines 354-391): throw on transport failure,
return `none` for a non-HTML content type, throw the blocking-signal error
when the body carries a Cloudflare marker, otherwise return the body. -/
def scrapeWithAxiosM (env : CrawlEnv) (url : String) :
    Except JsError (Option (String × Doc)) :=
  match env.staticFetch url with
  | .failure e => .error e
  | .response ct body d =>
    if !strHas ct "text/html" then .ok none
    else if cfMarkers body then
      .error (.rawError "Cloudflare protection detected" none none)
    else .ok (some (body, d))

/-- Model of `scrapeWithPuppeteer` (lines 393-481): throw when no browser
runtime is available (`getBrowser` returned null), throw a navigation error,
otherwise return the final markup — even when it still carries a blocking
signal (the marker check at lines 465-471 only extends the wait). -/
def scrapeWithPuppeteerM (env : CrawlEnv) (url : String) :
    Except JsError (String × Doc) :=
  if !env.browserAvailable then .error (.rawError "Browser not available" none none)
  else
    match env.puppet url with
    | .failure e => .error e
    | .content body d => .ok (body, d)

/-- Model of `scrapePage` (lines 325-352): fetch with the current strategy,
return `null` for non-HTML or empty markup (`if (!html) return null`), else
parse the page URL and run the extraction pipeline. -/
def scrapePageM (env : CrawlEnv) (usePuppeteer : Bool) (domain : String)
    (url : String) : Except JsError (Option PageData) :=
  let fetched : Except JsError (Option (String × Doc)) :=
    if usePuppeteer then (scrapeWithPuppeteerM env url).map some
    else scrapeWithAxiosM env url
  match fetched with
  | .error e => .error e
  | .ok none => .ok none
  | .ok (some (body, d)) =>
    if body = "" then .ok none
    else
      match parseAbs url with
      | none => .error (.rawError "Invalid URL" none none)
      | some pu => .ok (some (buildPageData domain pu url d))

/-- The per-failure mapping of the `crawlPages` catch block (lines 306-313):
HTTP 403 and 429 responses become `AppError`s, every other error is
rethrown as-is. -/
def crawlCatchMap (e : JsError) : JsError :=
  if respStatusOf e = some 403 then
    .appError "Access denied (403). This website blocks automated scraping requests." 403
  else if respStatusOf e = some 429 then
    .appError "Too many requests (429). Please try again later." 429
  else e

/-- The discovered-link enqueueing of `crawlPages` (lines 294-299): resolve
each internal link against the base URL and append it unless it is null,
already visited, or already queued. -/
def enqueueLinks (baseU : UrlM) (visited : List String) :
    List String → List String → List String
  | [], queue => queue
  | l :: ls, queue =>
    match resolveUrlM l baseU with
    | none => enqueueLinks baseU visited ls queue
    | some u =>
      if !visited.contains u.href && !queue.contains u.href then
        enqueueLinks baseU visited ls (queue ++ [u.href])
      else enqueueLinks baseU visited ls queue

instance {ε α : Type} [DecidableEq ε] [DecidableEq α] : DecidableEq (Except ε α) := by
  intro a b
  cases a <;> cases b
  case error.error x y =>
    exact if h : x = y then .isTrue (by rw [h]) else .isFalse (by simp [h])
  case ok.ok x y =>
    exact if h : x = y then .isTrue (by rw [h]) else .isFalse (by simp [h])
  case error.ok x y => exact .isFalse (by simp)
  case ok.error x y => exact .isFalse (by simp)

/-- The observable final state of one `crawlPages` run: its result, the
visited set (the instance field `visitedUrls`), and the trace of URLs on
which a fetch was attempted (one entry per `scrapePage` call). -/
structure LoopOut where
  result : Except JsError (List PageData)
  visited : List String
  attempts : List String
deriving DecidableEq

/-- The `while` loop of `crawlPages` (lines 279-316), fuel-indexed (the fuel
only bounds the number of iterations; `none` means it ran out).  Per
iteration: exit when the queue is empty or the page cap is reached; skip
visited URLs; on a successful fetch push the page, mark visited and (below
the cap) enqueue discovered links; on a null (non-HTML) fetch do nothing
further — in particular the URL is NOT marked visited; on a thrown fetch
error mark visited and fail with the mapped error exactly when no page has
succeeded and the queue is empty, otherwise continue. -/
def crawlLoopSt (env : CrawlEnv) (up : Bool) (domain : String) (baseU : UrlM) :
    Nat → List String → List String → List PageData → List String → Option LoopOut
  | fuel, queue, visited, pages, attempts =>
    match queue with
    | [] => some ⟨.ok pages, visited, attempts⟩
    | url :: rest =>
      if effMaxPages env.maxPagesOpt ≤ pages.length then some ⟨.ok pages, visited, attempts⟩
      else
        match fuel with
        | 0 => none
        | fuel' + 1 =>
          if visited.contains url then
            crawlLoopSt env up domain baseU fuel' rest visited pages attempts
          else
            let attempts' := attempts ++ [url]
            match scrapePageM env up domain url with
            | .error e =>
              let visited' := visited ++ [url]
              if pages.length = 0 ∧ rest.length = 0 then
                some ⟨.error (crawlCatchMap e), visited', attempts'⟩
              else crawlLoopSt env up domain baseU fuel' rest visited' pages attempts'
            | .ok none =>
              crawlLoopSt env up domain baseU fuel' rest visited pages attempts'
            | .ok (some pd) =>
              let pages' := pages ++ [pd]
              let visited' := visited ++ [url]
              let queue' :=
                if pages'.length < effMaxPages env.maxPagesOpt then
                  enqueueLinks baseU visited' pd.internalLinks rest
                else rest
              crawlLoopSt env up domain baseU fuel' queue' visited' pages' attempts'

/-- Model of one `crawlPages` call (lines 275-323): run the loop from the
given queue/visited state, then fail with the NoPagesScraped `AppError` when
zero pages were collected. -/
def crawlPagesM (env : CrawlEnv) (up : Bool) (domain : String) (baseU : UrlM)
    (fuel : Nat) (startUrl : String) : Option (Except JsError (List PageData)) :=
  match crawlLoopSt env up domain baseU fuel [startUrl] [] [] [] with
  | none => none
  | some out =>
    match out.result with
    | .error e => some (.error e)
    | .ok pages =>
      if pages.length = 0 then
        some (.error (.appError
          "Could not scrape any pages from this website. The site may block scraping or require authentication." 403))
      else some (.ok pages)

/-- The outer catch of `scrape` (lines 246-272): an `AppError` passes through
unchanged; raw errors are translated by `code`, then by message contents,
and otherwise into the generic 500 failure. -/
def scrapeCatchMap (e : JsError) : JsError :=
  match e with
  | .appError m s => .appError m s
  | .rawError m c _ =>
    if c = some "ENOTFOUND" then
      .appError "Website not found. Please check the URL." 400
    else if c = some "ECONNREFUSED" then
      .appError "Connection refused. The website may be down." 503
    else if c = some "CERT_HAS_EXPIRED" ∨ c = some "UNABLE_TO_VERIFY_LEAF_SIGNATURE" ∨
        c = some "SELF_SIGNED_CERT_IN_CHAIN" ∨ c = some "ERR_TLS_CERT_ALTNAME_INVALID" ∨
        strHas m "certificate" then
      .appError "SSL certificate error. The website has an invalid certificate." 400
    else if strHas m "Invalid URL" then
      .appError "Invalid URL format provided." 400
    else .appError "Failed to scrape the website. Please try again." 500

/-- The SiteResult assembly of `scrape` (lines 236-244). -/
def mkSite (env : CrawlEnv) (baseUrl : String) (pages : List PageData) : SiteResult :=
  { siteTitle := match pages with | [] => "" | p :: _ => p.title
    baseUrl := baseUrl
    scrapedAt := env.now
    totalPages := pages.length
    pages := pages }

/-- Username extraction of `scrapeLeetCode` (lines 93-101) from the filtered
path segments. -/
def lcUsername (parts : List String) : Option String :=
  match parts with
  | [] => none
  | ["u"] => some "u"
  | "u" :: p1 :: _ => some p1
  | p0 :: _ =>
    if ["problems", "contest", "discuss", "explore"].contains p0 then none
    else some p0

/-- Model of `scrapeLeetCode` (lines 92-209): extract a username from the
URL path, query the GraphQL API oracle, and assemble a single synthetic
page from the structured payload; otherwise raise the scoped `AppError`s. -/
def scrapeLeetCode (api : LCApi) (url : String) (pu : UrlM) (now : String) :
    Except JsError SiteResult :=
  let parts := (splitSlash pu.pathname).filter (fun s => s ≠ "")
  match lcUsername parts with
  | none =>
    .error (.appError
      "LeetCode pages other than user profiles cannot be scraped due to heavy JavaScript rendering." 400)
  | some _ =>
    match api with
    | .failure e =>
      match e with
      | .appError m s => .error (.appError m s)
      | .rawError _ _ _ =>
        .error (.appError
          "Failed to fetch LeetCode profile. The user may not exist or the service is temporarily unavailable." 503)
    | .success none => .error (.appError "LeetCode user not found." 404)
    | .success (some user) =>
      let profile := user.profile
      let content :=
        (if profile.aboutMe ≠ "" then [profile.aboutMe] else []) ++
        (if profile.company ≠ "" then ["Company: " ++ profile.company] else []) ++
        (if profile.school ≠ "" then ["School: " ++ profile.school] else []) ++
        (if profile.countryName ≠ "" then ["Country: " ++ profile.countryName] else []) ++
        user.stats.map (fun st =>
          st.difficulty ++ ": " ++ toString st.count ++ " problems solved (" ++
          toString st.submissions ++ " submissions)")
      .ok
        { siteTitle := user.username ++ " - LeetCode Profile"
          baseUrl := "https://leetcode.com"
          scrapedAt := now
          totalPages := 1
          pages := [{
            url := pu.pathname
            fullUrl := url
            title := user.username ++ " - LeetCode Profile"
            metaDescription :=
              if profile.aboutMe ≠ "" then profile.aboutMe
              else "LeetCode profile for " ++ user.username
            headings := [⟨"h1", user.username⟩,
              ⟨"h2", "Ranking: #" ++
                (if profile.ranking = 0 then "N/A" else toString profile.ranking)⟩,
              ⟨"h2", "Reputation: " ++ toString profile.reputation⟩]
            content := content
            images :=
              if profile.userAvatar ≠ "" then [⟨profile.userAvatar, "Profile Avatar"⟩]
              else []
            internalLinks := []
            externalLinks := profile.websites }] }

/-- Model of `scrape` (lines 211-273), additionally reporting whether the
rendered-strategy retry ran (the `Bool`): parse the seed URL, dispatch
LeetCode hosts to the adapter, otherwise run the static-strategy crawl and —
on ANY exception from it — clear the visited state and rerun the whole crawl
with the rendered strategy; errors escaping that are translated once by the
outer catch.  `none` propagates loop-fuel exhaustion. -/
def scrapeRunT (env : CrawlEnv) (fuel : Nat) (seedUrl : String) :
    Option (Bool × Except JsError SiteResult) :=
  match parseAbs seedUrl with
  | some (UrlM.web sc h p q f) =>
    let baseUrl := sc ++ "://" ++ h
    let baseU := UrlM.web sc h "" "" ""
    if strHas h "leetcode.com" then
      match scrapeLeetCode env.lcApi seedUrl (UrlM.web sc h p q f) env.now with
      | .ok site => some (false, .ok site)
      | .error e => some (false, .error (scrapeCatchMap e))
    else
      match crawlPagesM env false h baseU fuel seedUrl with
      | none => none
      | some (.ok pages) => some (false, .ok (mkSite env baseUrl pages))
      | some (.error _) =>
        match crawlPagesM env true h baseU fuel seedUrl with
        | none => none
        | some (.ok pages) => some (true, .ok (mkSite env baseUrl pages))
        | some (.error e2) => some (true, .error (scrapeCatchMap e2))
  | _ => some (false, .error (scrapeCatchMap (.rawError "Invalid URL" none none)))

/-- The observable result of `scrape` (drops the escalation flag). -/
def scrapeRun (env : CrawlEnv) (fuel : Nat) (seedUrl : String) :
    Option (Except JsError SiteResult) :=
  (scrapeRunT env fuel seedUrl).map Prod.snd

/-!
Named predicates and concrete inputs used by the verification theorems
below: scenario documents from the spec, and concrete oracle environments
exercising the orchestration paths.
-/

/-- The per-page cap invariants of the spec (headings 50, content 100,
images 50, internal links 100, external links 50). -/
def pageCapsOk (p : PageData) : Prop :=
  p.headings.length ≤ 50 ∧ p.content.length ≤ 100 ∧ p.images.length ≤ 50 ∧
  p.internalLinks.length ≤ 100 ∧ p.externalLinks.length ≤ 50

mutual
/-- The (tag, attributes) pairs of all elements of a node's subtree, in
document order (the node's identity data, independent of its pruned or
unpruned children). -/
def nodeTA : Node → List (String × List (String × String))
  | .text _ => []
  | .elem tg a cs => (tg, a) :: forestTA cs
/-- The (tag, attributes) pairs of all elements of a forest. -/
def forestTA : List Node → List (String × List (String × String))
  | [] => []
  | n :: ns => nodeTA n ++ forestTA ns
end

mutual
/-- The (tag, attributes) pairs of the elements of a node's subtree that are
not at or inside a chrome-matching element: the subtree of every element
matching the removal selector is skipped whole. -/
def nodeKeptTA : Node → List (String × List (String × String))
  | .text _ => []
  | .elem tg a cs => if chromeMatch tg a then [] else (tg, a) :: forestKeptTA cs
/-- The kept (tag, attributes) pairs of a forest. -/
def forestKeptTA : List Node → List (String × List (String × String))
  | [] => []
  | n :: ns => nodeKeptTA n ++ forestKeptTA ns
end

/-- Scenario A of the spec, parsed: markup
`<title>Hello</title><p>This paragraph is definitely over twenty characters
long.</p><p>Short</p>` under the usual html/head/body wrapping. -/
def scenarioA : Doc :=
  [Node.elem "html" [] [Node.elem "head" [] [Node.elem "title" [] [Node.text "Hello"]],
    Node.elem "body" [] [
      Node.elem "p" [] [Node.text "This paragraph is definitely over twenty characters long."],
      Node.elem "p" [] [Node.text "Short"]]]]

/-- Scenario C of the spec, parsed: a tracking-pixel image, a relative logo
image (twice, to exercise raw-value deduplication) and a lazy-loaded
`data-src` image. -/
def scenarioC : Doc :=
  [Node.elem "html" [] [Node.elem "body" [] [
    Node.elem "img" [("src", "https://example.com/track/pixel.gif")] [],
    Node.elem "img" [("src", "/logo.png"), ("alt", "Logo")] [],
    Node.elem "img" [("src", "/logo.png"), ("alt", "dup")] [],
    Node.elem "img" [("data-src", "/ds.png")] []]]]

/-- The parsed page URL `https://example.com/about` of Scenario C. -/
def puAbout : UrlM := UrlM.web "https" "example.com" "/about" "" ""

/-- An anchor to a different host, for exercising external-link extraction. -/
def c9wDoc : Doc := [Node.elem "a" [("href", "https://ext.example/x")] []]

/-- Seed document for the C1 counterexample: links to `/a` and `/b`. -/
def c1SeedDoc : Doc :=
  [Node.elem "html" [] [Node.elem "body" []
    [Node.elem "a" [("href", "/a")] [], Node.elem "a" [("href", "/b")] []]]]

/-- Page `/b` of the C1 counterexample: links back to `/a`. -/
def c1BDoc : Doc :=
  [Node.elem "html" [] [Node.elem "body" [] [Node.elem "a" [("href", "/a")] []]]]

/-- C1 counterexample environment: the seed page links to `/a` (which serves
a non-HTML content type) and `/b` (an HTML page linking back to `/a`). -/
def c1Env : CrawlEnv :=
  { staticFetch := fun url =>
      if url == "https://c1.test/" then .response "text/html" "<html>s</html>" c1SeedDoc
      else if url == "https://c1.test/a" then .response "application/pdf" "x" []
      else if url == "https://c1.test/b" then .response "text/html" "<html>b</html>" c1BDoc
      else .failure (.rawError "unexpected" none none)
    puppet := fun _ => .failure (.rawError "unexpected" none none)
    browserAvailable := false
    lcApi := .failure (.rawError "unexpected" none none)
    maxPagesOpt := 5
    now := "T" }

/-- The resolution base of the C1 counterexample job. -/
def c1Base : UrlM := UrlM.web "https" "c1.test" "" "" ""

/-- Witness environment for the amended C1 theorem: every fetch returns a
non-HTML content type. -/
def c1wEnv : CrawlEnv :=
  { staticFetch := fun _ => .response "text/plain" "x" []
    puppet := fun _ => .failure (.rawError "unexpected" none none)
    browserAvailable := false
    lcApi := .failure (.rawError "unexpected" none none)
    maxPagesOpt := 5
    now := "T" }

/-- The loop state reached by the C1 witness run. -/
def c1wOut : LoopOut := ⟨.ok [], [], ["https://w.test/"]⟩

/-- A plain successful page used by several orchestration runs. -/
def c2DocOk : Doc :=
  [Node.elem "html" [] [Node.elem "head" [] [Node.elem "title" [] [Node.text "OK"]],
    Node.elem "body" [] []]]

/-- C2 counterexample environment: the static fetch of the seed throws a
plain HTTP 500 transport error (no blocking signal anywhere), the rendered
fetch succeeds. -/
def c2Env : CrawlEnv :=
  { staticFetch := fun _ => .failure (.rawError "Request failed with status code 500" none (some 500))
    puppet := fun url =>
      if url == "https://c2.test/" then .content "<html>ok</html>" c2DocOk
      else .failure (.rawError "unexpected" none none)
    browserAvailable := true
    lcApi := .failure (.rawError "unexpected" none none)
    maxPagesOpt := 1
    now := "T" }

/-- The page extracted from `c2DocOk` at the C2 seed. -/
def c2Page : PageData :=
  { url := "/"
    fullUrl := "https://c2.test/"
    title := "OK"
    metaDescription := ""
    headings := []
    content := []
    images := []
    internalLinks := []
    externalLinks := [] }

/-- The challenge-page markup still present under the rendered strategy in
the C3 counterexample. -/
def c3ChDoc : Doc :=
  [Node.elem "html" [] [Node.elem "head" [] [Node.elem "title" [] [Node.text "Just a moment..."]],
    Node.elem "body" [] []]]

/-- C3 counterexample environment: the static seed response body carries a
Cloudflare challenge marker; the rendered fetch still returns markup
containing a blocking signal. -/
def c3Env : CrawlEnv :=
  { staticFetch := fun _ => .response "text/html" "<html>Just a moment...</html>" []
    puppet := fun url =>
      if url == "https://c3.test/" then .content "<html>Just a moment...</html>" c3ChDoc
      else .failure (.rawError "unexpected" none none)
    browserAvailable := true
    lcApi := .failure (.rawError "unexpected" none none)
    maxPagesOpt := 1
    now := "T" }

/-- The page extracted from the challenge markup in the C3 run. -/
def c3Page : PageData :=
  { url := "/"
    fullUrl := "https://c3.test/"
    title := "Just a moment..."
    metaDescription := ""
    headings := []
    content := []
    images := []
    internalLinks := []
    externalLinks := [] }

/-- Witness environment for C4: the only fetch fails with an HTTP 403. -/
def c4wEnv : CrawlEnv :=
  { staticFetch := fun _ => .failure (.rawError "Request failed with status code 403" none (some 403))
    puppet := fun _ => .failure (.rawError "unexpected" none none)
    browserAvailable := false
    lcApi := .failure (.rawError "unexpected" none none)
    maxPagesOpt := 5
    now := "T" }

/-- C5 counterexample environment: the static seed fetch fails with a DNS
resolution error (`ENOTFOUND`) and no browser runtime is available. -/
def c5Env : CrawlEnv :=
  { staticFetch := fun _ => .failure (.rawError "getaddrinfo ENOTFOUND c5.test" (some "ENOTFOUND") none)
    puppet := fun _ => .failure (.rawError "unexpected" none none)
    browserAvailable := false
    lcApi := .failure (.rawError "unexpected" none none)
    maxPagesOpt := 5
    now := "T" }

/-- A LeetCode profile whose `websites` list has 51 entries (the GraphQL API
imposes no bound the scraper could rely on). -/
def c8Profile : LCProfile :=
  { aboutMe := ""
    userAvatar := ""
    company := ""
    school := ""
    countryName := ""
    websites := List.replicate 51 "https://a.example/"
    reputation := 0
    ranking := 0 }

/-- The API oracle returning `c8Profile`. -/
def c8Api : LCApi :=
  .success (some { username := "alice", profile := c8Profile, stats := [] })

/-- A LeetCode profile whose `websites` list contains a URL on the
leetcode.com base domain itself. -/
def c9Profile : LCProfile :=
  { aboutMe := ""
    userAvatar := ""
    company := ""
    school := ""
    countryName := ""
    websites := ["https://leetcode.com/u/alice"]
    reputation := 0
    ranking := 0 }

/-- The API oracle returning `c9Profile`. -/
def c9Api : LCApi :=
  .success (some { username := "alice", profile := c9Profile, stats := [] })

/-!
Supporting lemmas.
-/

/-- The visited set of the crawl loop only ever grows. -/
theorem crawlLoopSt_visited_mono (env : CrawlEnv) (up : Bool) (domain : String)
    (baseU : UrlM) :
    ∀ (fuel : Nat) (queue visited : List String) (pages : List PageData)
      (attempts : List String) (out : LoopOut),
      crawlLoopSt env up domain baseU fuel queue visited pages attempts = some out →
      visited ⊆ out.visited := by
  intro fuel
  induction fuel with
  | zero =>
    intro queue visited pages attempts out h
    cases queue with
    | nil =>
      rw [crawlLoopSt] at h
      simp at h
      rw [← h]
      exact fun x hx => hx
    | cons url rest =>
      rw [crawlLoopSt] at h
      split at h
      · simp at h
        rw [← h]
        exact fun x hx => hx
      · simp at h
  | succ fuel ih =>
    intro queue visited pages attempts out h
    cases queue with
    | nil =>
      rw [crawlLoopSt] at h
      simp at h
      rw [← h]
      exact fun x hx => hx
    | cons url rest =>
      rw [crawlLoopSt] at h
      split at h
      · simp at h
        rw [← h]
        exact fun x hx => hx
      · split at h
        · exact ih rest visited pages attempts out h
        · cases hsp : scrapePageM env up domain url with
          | error e =>
            rw [hsp] at h
            simp only [] at h
            split at h
            · simp at h
              intro x hx
              rw [← h]
              simp
              exact Or.inl hx
            · intro x hx
              exact ih _ _ _ _ _ h (by simp [hx])
          | ok o =>
            rw [hsp] at h
            cases o with
            | none =>
              simp only [] at h
              exact ih _ _ _ _ _ h
            | some pd =>
              simp only [] at h
              intro x hx
              exact ih _ _ _ _ _ h (by simp [hx])

/-- Every URL in the crawl loop's fetch-attempt trace was already attempted
before the loop started, or its fetch returned null (non-HTML), or it ends
up in the visited set. -/
theorem crawlLoopSt_attempts_spec (env : CrawlEnv) (up : Bool) (domain : String)
    (baseU : UrlM) :
    ∀ (fuel : Nat) (queue visited : List String) (pages : List PageData)
      (attempts : List String) (out : LoopOut),
      crawlLoopSt env up domain baseU fuel queue visited pages attempts = some out →
      ∀ url, url ∈ out.attempts →
        url ∈ attempts ∨ scrapePageM env up domain url = .ok none ∨ url ∈ out.visited := by
  intro fuel
  induction fuel with
  | zero =>
    intro queue visited pages attempts out h url hu
    cases queue with
    | nil =>
      rw [crawlLoopSt] at h
      simp at h
      rw [← h] at hu
      exact Or.inl hu
    | cons u0 rest =>
      rw [crawlLoopSt] at h
      split at h
      · simp at h
        rw [← h] at hu
        exact Or.inl hu
      · simp at h
  | succ fuel ih =>
    intro queue visited pages attempts out h url hu
    cases queue with
    | nil =>
      rw [crawlLoopSt] at h
      simp at h
      rw [← h] at hu
      exact Or.inl hu
    | cons u0 rest =>
      rw [crawlLoopSt] at h
      split at h
      · simp at h
        rw [← h] at hu
        exact Or.inl hu
      · split at h
        · exact ih rest visited pages attempts out h url hu
        · cases hsp : scrapePageM env up domain u0 with
          | error e =>
            rw [hsp] at h
            simp only [] at h
            split at h
            · simp at h
              rw [← h] at hu
              simp at hu
              rcases hu with hu | hu
              · exact Or.inl hu
              · right; right
                rw [← h]
                simp [hu]
            · rcases ih _ _ _ _ _ h url hu with hin | hrest
              · simp at hin
                rcases hin with hin | hin
                · exact Or.inl hin
                · right; right
                  exact crawlLoopSt_visited_mono env up domain baseU _ _ _ _ _ _ h
                    (by simp [hin])
              · exact Or.inr hrest
          | ok o =>
            rw [hsp] at h
            cases o with
            | none =>
              simp only [] at h
              rcases ih _ _ _ _ _ h url hu with hin | hrest
              · simp at hin
                rcases hin with hin | hin
                · exact Or.inl hin
                · right; left
                  rw [hin]
                  exact hsp
              · exact Or.inr hrest
            | some pd =>
              simp only [] at h
              rcases ih _ _ _ _ _ h url hu with hin | hrest
              · simp at hin
                rcases hin with hin | hin
                · exact Or.inl hin
                · right; right
                  exact crawlLoopSt_visited_mono env up domain baseU _ _ _ _ _ _ h
                    (by simp [hin])
              · exact Or.inr hrest

/-- A string of length above 20 is not empty. -/
theorem strLen_gt_ne_empty (t : String) (h : 20 < strLen t) : t ≠ "" := by
  intro he
  rw [he] at h
  exact absurd h (by decide)

/-- The paragraph scan is the filter of the trimmed paragraph texts by the
length window, capped at 100 (the emptiness test in the source is subsumed
by the lower length bound). -/
theorem contentParagraphs_eq_filter (d : Doc) :
    contentParagraphs d =
      (((taggedElems "p" d).map (fun n => strTrim (nodeText n))).filter
        (fun t => decide (20 < strLen t ∧ strLen t < 5000))).take 100 := by
  rw [contentParagraphs]
  congr 1
  induction taggedElems "p" d with
  | nil => rfl
  | cons n ns ih =>
    simp only [List.filterMap_cons, List.map_cons, List.filter_cons]
    by_cases h : 20 < strLen (strTrim (nodeText n)) ∧ strLen (strTrim (nodeText n)) < 5000
    · have hne : strTrim (nodeText n) ≠ "" := strLen_gt_ne_empty _ h.1
      simp [h, hne, ih]
    · have : ¬(strTrim (nodeText n) ≠ "" ∧ 20 < strLen (strTrim (nodeText n)) ∧
          strLen (strTrim (nodeText n)) < 5000) := by
        intro hx
        exact h ⟨hx.2.1, hx.2.2⟩
      simp [this, h, ih]

/-- Images accumulated by the image traversal never match the tracking-pixel
heuristic. -/
theorem imagesLoop_no_tracking (pu : UrlM) :
    ∀ (ns : List Node) (seen : List String) (acc : List Image),
    (∀ i ∈ acc, isTrackingPixel i.src = false) →
    ∀ i ∈ imagesLoop pu ns seen acc, isTrackingPixel i.src = false := by
  intro ns
  induction ns with
  | nil =>
    intro seen acc hacc i hi
    rw [imagesLoop] at hi
    exact hacc i hi
  | cons n ns ih =>
    intro seen acc hacc i hi
    rw [imagesLoop] at hi
    cases hsrc : jsOr (nodeAttr n "src") (nodeAttr n "data-src") with
    | none =>
      simp only [hsrc] at hi
      exact ih _ _ hacc i hi
    | some src =>
      simp only [hsrc] at hi
      by_cases h1 : src = ""
      · rw [if_pos h1] at hi
        exact ih _ _ hacc i hi
      · rw [if_neg h1] at hi
        by_cases h2 : seen.contains src = true
        · rw [if_pos h2] at hi
          exact ih _ _ hacc i hi
        · rw [if_neg h2] at hi
          cases hres : resolveUrlM src pu with
          | none =>
            simp only [hres] at hi
            exact ih _ _ hacc i hi
          | some u =>
            simp only [hres] at hi
            by_cases h3 : isTrackingPixel u.href = true
            · rw [if_pos h3] at hi
              exact ih _ _ hacc i hi
            · rw [if_neg h3] at hi
              refine ih _ _ ?_ i hi
              intro j hj
              simp at hj
              rcases hj with hj | hj
              · exact hacc j hj
              · rw [hj]
                simpa using h3

/-- Appending a colon is injective on strings. -/
theorem strAppendColonCancel (sc t : String) (h : sc ++ ":" = t ++ ":") : sc = t := by
  have hd := congrArg String.data h
  rw [String.data_append, String.data_append] at hd
  exact String.ext (List.append_cancel_right hd)

/-- The absolute-URL parser produces an opaque-scheme URL only for schemes
other than http and https. -/
theorem parseAbs_other_scheme (s sc r : String)
    (h : parseAbs s = some (.other sc r)) : sc ≠ "http" ∧ sc ≠ "https" := by
  rw [parseAbs] at h
  cases hss : schemeSplit s with
  | none =>
    rw [hss] at h
    simp at h
  | some pr =>
    obtain ⟨sc0, rest⟩ := pr
    rw [hss] at h
    simp only [] at h
    by_cases hh : (strLower sc0 == "http" || strLower sc0 == "https") = true
    · rw [if_pos hh] at h
      by_cases hs2 : strStarts rest "//" = true
      · rw [if_pos hs2] at h
        rw [parseAuthority] at h
        by_cases he : ((rest.data.drop 2).takeWhile (fun c => !authDelim c)).isEmpty = true
        · rw [if_pos he] at h
          simp at h
        · rw [if_neg he] at h
          simp at h
      · rw [if_neg hs2] at h
        simp at h
    · rw [if_neg hh] at h
      simp only [Option.some.injEq] at h
      have hsc : sc = strLower sc0 := by
        cases h
        rfl
      simp only [Bool.or_eq_true, beq_iff_eq, not_or] at hh
      constructor
      · rw [hsc]; exact fun hx => hh.1 hx
      · rw [hsc]; exact fun hx => hh.2 hx

/-- A resolved URL whose protocol is http(s) is a `web` URL with that
scheme (the resolver never produces an opaque http(s) URL). -/
theorem resolveUrlM_web_of_protocol (s : String) (b : UrlM) (u : UrlM)
    (hres : resolveUrlM s b = some u)
    (hp : u.protocol = "http:" ∨ u.protocol = "https:") :
    ∃ sc h p q fr, u = UrlM.web sc h p q fr ∧ (sc = "http" ∨ sc = "https") := by
  cases u with
  | web sc h p q fr =>
    refine ⟨sc, h, p, q, fr, rfl, ?_⟩
    rcases hp with hp | hp
    · exact Or.inl (strAppendColonCancel sc "http" hp)
    · exact Or.inr (strAppendColonCancel sc "https" hp)
  | other sc r =>
    exfalso
    have hother : parseAbs s = some (.other sc r) := by
      rw [resolveUrlM.eq_def] at hres
      cases hpa : parseAbs s with
      | none =>
        rw [hpa] at hres
        cases b with
        | other sc2 r2 => simp at hres
        | web sc2 h2 p2 q2 f2 =>
          simp only [] at hres
          split at hres
          · simp at hres
          · split at hres
            · rw [parseAuthority] at hres
              split at hres
              · simp at hres
              · simp at hres
            · split at hres
              · simp at hres
              · split at hres
                · simp at hres
                · split at hres
                  · simp at hres
                  · simp at hres
      | some v =>
        rw [hpa] at hres
        simp at hres
        rw [hres]
    have := parseAbs_other_scheme s sc r hother
    rcases hp with hp | hp
    · exact this.1 (strAppendColonCancel sc "http" hp)
    · exact this.2 (strAppendColonCancel sc "https" hp)

/-- Every string accumulated by the external-link traversal serialises a
`web` URL with an http(s) scheme and a host different from the base
domain. -/
theorem externalLoop_spec (pu : UrlM) (domain : String) :
    ∀ (ns : List Node) (seen acc : List String),
    (∀ s ∈ acc, ∃ sc h p q fr, s = (UrlM.web sc h p q fr).href ∧
      (sc = "http" ∨ sc = "https") ∧ h ≠ domain) →
    ∀ s ∈ externalLoop pu domain ns seen acc,
      ∃ sc h p q fr, s = (UrlM.web sc h p q fr).href ∧
        (sc = "http" ∨ sc = "https") ∧ h ≠ domain := by
  intro ns
  induction ns with
  | nil =>
    intro seen acc hacc s hs
    rw [externalLoop] at hs
    exact hacc s hs
  | cons n ns ih =>
    intro seen acc hacc s hs
    rw [externalLoop] at hs
    cases hhr : nodeAttr n "href" with
    | none =>
      simp only [hhr] at hs
      exact ih _ _ hacc s hs
    | some href =>
      simp only [hhr] at hs
      by_cases h1 : href = ""
      · rw [if_pos h1] at hs
        exact ih _ _ hacc s hs
      · rw [if_neg h1] at hs
        by_cases h2 : seen.contains href = true
        · rw [if_pos h2] at hs
          exact ih _ _ hacc s hs
        · rw [if_neg h2] at hs
          cases hres : resolveUrlM href pu with
          | none =>
            simp only [hres] at hs
            exact ih _ _ hacc s hs
          | some u =>
            simp only [hres] at hs
            by_cases h3 : u.host ≠ domain ∧ (u.protocol = "http:" ∨ u.protocol = "https:")
            · rw [if_pos h3] at hs
              refine ih _ _ ?_ s hs
              intro t ht
              simp at ht
              rcases ht with ht | ht
              · exact hacc t ht
              · obtain ⟨sc, hh, p, q, fr, hu, hsc⟩ :=
                  resolveUrlM_web_of_protocol href pu u hres h3.2
                refine ⟨sc, hh, p, q, fr, ?_, hsc, ?_⟩
                · rw [ht, hu]
                · have := h3.1
                  rw [hu] at this
                  exact this
            · rw [if_neg h3] at hs
              exact ih _ _ hacc s hs

/-- The extraction pipeline respects every per-page cap. -/
theorem buildPageData_caps (domain : String) (pu : UrlM) (url : String) (d : Doc) :
    pageCapsOk (buildPageData domain pu url d) := by
  refine ⟨?_, ?_, ?_, ?_, ?_⟩
  · simp only [buildPageData, extractHeadings]
    exact List.length_take_le 50 _
  · simp only [buildPageData, contentParagraphs]
    exact List.length_take_le 100 _
  · simp only [buildPageData, extractImages]
    exact List.length_take_le 50 _
  · simp only [buildPageData, extractInternalLinks]
    exact List.length_take_le 100 _
  · simp only [buildPageData, extractExternalLinks]
    exact List.length_take_le 50 _

/-- Every page produced by a fetch satisfies the caps. -/
theorem scrapePageM_caps (env : CrawlEnv) (up : Bool) (domain url : String)
    (pd : PageData) (h : scrapePageM env up domain url = .ok (some pd)) :
    pageCapsOk pd := by
  rw [scrapePageM] at h
  cases hf : (if up then (scrapeWithPuppeteerM env url).map some
      else scrapeWithAxiosM env url) with
  | error e =>
    rw [hf] at h
    simp at h
  | ok o =>
    rw [hf] at h
    cases o with
    | none => simp at h
    | some bd =>
      obtain ⟨body, d⟩ := bd
      simp only [] at h
      by_cases hb : body = ""
      · rw [if_pos hb] at h
        simp at h
      · rw [if_neg hb] at h
        cases hpa : parseAbs url with
        | none =>
          rw [hpa] at h
          simp at h
        | some pu =>
          rw [hpa] at h
          simp only [Except.ok.injEq, Option.some.injEq] at h
          rw [← h]
          exact buildPageData_caps domain pu url d

/-- Loop invariant: a successful crawl-loop result keeps the page list below
the effective cap and every collected page within the per-page caps. -/
theorem crawlLoopSt_caps (env : CrawlEnv) (up : Bool) (domain : String) (baseU : UrlM) :
    ∀ (fuel : Nat) (queue visited : List String) (pages : List PageData)
      (attempts : List String) (out : LoopOut) (r : List PageData),
      crawlLoopSt env up domain baseU fuel queue visited pages attempts = some out →
      pages.length ≤ effMaxPages env.maxPagesOpt →
      (∀ p ∈ pages, pageCapsOk p) →
      out.result = .ok r →
      r.length ≤ effMaxPages env.maxPagesOpt ∧ ∀ p ∈ r, pageCapsOk p := by
  intro fuel
  induction fuel with
  | zero =>
    intro queue visited pages attempts out r h hlen hcaps hr
    cases queue with
    | nil =>
      rw [crawlLoopSt] at h
      simp at h
      rw [← h] at hr
      simp at hr
      rw [← hr]
      exact ⟨hlen, hcaps⟩
    | cons u0 rest =>
      rw [crawlLoopSt] at h
      split at h
      · simp at h
        rw [← h] at hr
        simp at hr
        rw [← hr]
        exact ⟨hlen, hcaps⟩
      · simp at h
  | succ fuel ih =>
    intro queue visited pages attempts out r h hlen hcaps hr
    cases queue with
    | nil =>
      rw [crawlLoopSt] at h
      simp at h
      rw [← h] at hr
      simp at hr
      rw [← hr]
      exact ⟨hlen, hcaps⟩
    | cons u0 rest =>
      rw [crawlLoopSt] at h
      split at h
      · simp at h
        rw [← h] at hr
        simp at hr
        rw [← hr]
        exact ⟨hlen, hcaps⟩
      · rename_i hcap
        split at h
        · exact ih rest visited pages attempts out r h hlen hcaps hr
        · cases hsp : scrapePageM env up domain u0 with
          | error e =>
            rw [hsp] at h
            simp only [] at h
            split at h
            · simp at h
              rw [← h] at hr
              simp at hr
            · exact ih _ _ _ _ _ _ h hlen hcaps hr
          | ok o =>
            rw [hsp] at h
            cases o with
            | none =>
              simp only [] at h
              exact ih _ _ _ _ _ _ h hlen hcaps hr
            | some pd =>
              simp only [] at h
              refine ih _ _ _ _ _ _ h ?_ ?_ hr
              · simp only [List.length_append, List.length_singleton]
                exact Nat.succ_le_of_lt (Nat.lt_of_not_le hcap)
              · intro p hp
                simp at hp
                rcases hp with hp | hp
                · exact hcaps p hp
                · rw [hp]
                  exact scrapePageM_caps env up domain u0 pd hsp

mutual
/-- Pruning a node keeps exactly the element identities outside chrome
subtrees. -/
theorem pruneNode_ta (n : Node) :
    (match pruneNode chromeMatch n with | none => [] | some m => nodeTA m) =
      nodeKeptTA n := by
  cases n with
  | text s => simp [pruneNode, nodeTA, nodeKeptTA]
  | elem tg a cs =>
    by_cases h : chromeMatch tg a = true
    · simp [pruneNode, nodeKeptTA, h]
    · simp [pruneNode, nodeKeptTA, h, nodeTA, pruneForest_ta cs]
/-- Pruning a forest keeps exactly the element identities outside chrome
subtrees. -/
theorem pruneForest_ta (l : List Node) :
    forestTA (pruneForest chromeMatch l) = forestKeptTA l := by
  cases l with
  | nil => simp [pruneForest, forestTA, forestKeptTA]
  | cons n ns =>
    have h1 := pruneNode_ta n
    have h2 := pruneForest_ta ns
    cases hp : pruneNode chromeMatch n with
    | none =>
      simp only [hp] at h1
      simp [pruneForest, hp, forestKeptTA, h2, ← h1]
    | some m =>
      simp only [hp] at h1
      simp [pruneForest, hp, forestTA, forestKeptTA, h2, h1]
end

mutual
/-- No kept element of a node matches the removal selector. -/
theorem nodeKeptTA_not_chrome (n : Node) :
    ∀ x ∈ nodeKeptTA n, chromeMatch x.1 x.2 = false := by
  cases n with
  | text s => simp [nodeKeptTA]
  | elem tg a cs =>
    intro x hx
    by_cases h : chromeMatch tg a = true
    · simp [nodeKeptTA, h] at hx
    · simp only [nodeKeptTA, h, if_false] at hx
      rcases List.mem_cons.mp hx with hx | hx
      · rw [hx]
        simpa using h
      · exact forestKeptTA_not_chrome cs x hx
/-- No kept element of a forest matches the removal selector. -/
theorem forestKeptTA_not_chrome (l : List Node) :
    ∀ x ∈ forestKeptTA l, chromeMatch x.1 x.2 = false := by
  cases l with
  | nil => simp [forestKeptTA]
  | cons n ns =>
    intro x hx
    simp only [forestKeptTA] at hx
    rcases List.mem_append.mp hx with hx | hx
    · exact nodeKeptTA_not_chrome n x hx
    · exact forestKeptTA_not_chrome ns x hx
end

/-!
Claim theorems.
-/

/-- C1, counterexample: the claim that every dequeued and attempted URL ends
up visited (also for non-HTML results), so that no URL is fetch-attempted
twice, is false.  In this crawl the URL `/a` serves a non-HTML content type:
its fetch is attempted, it is not marked visited, it is re-enqueued when
page `/b` links to it again, and it is fetch-attempted a second time within
the same job. -/
theorem c1_counterexample :
    scrapePageM c1Env false "c1.test" "https://c1.test/a" = .ok none ∧
    (crawlLoopSt c1Env false "c1.test" c1Base 10 ["https://c1.test/"] [] [] []).map
      (fun o => (o.attempts, o.visited)) =
      some (["https://c1.test/", "https://c1.test/a", "https://c1.test/b", "https://c1.test/a"],
        ["https://c1.test/", "https://c1.test/b"]) :=
  ⟨by decide, by decide⟩

/-- C1 (amended): for every crawl job, every URL that is dequeued and
fetch-attempted is a member of the visited set afterwards when the attempt
produced a page or threw; an attempt that returned a non-HTML result
(`scrapePage` returned null) leaves the URL unvisited and it may be
re-attempted. -/
theorem c1_amended (env : CrawlEnv) (up : Bool) (domain : String) (baseU : UrlM)
    (fuel : Nat) (startUrl : String) (out : LoopOut)
    (h : crawlLoopSt env up domain baseU fuel [startUrl] [] [] [] = some out) :
    ∀ url ∈ out.attempts, scrapePageM env up domain url = .ok none ∨ url ∈ out.visited := by
  intro url hu
  rcases crawlLoopSt_attempts_spec env up domain baseU fuel [startUrl] [] [] [] out h url hu
    with hin | h2
  · simp at hin
  · exact h2

/-- C1 witness: the amended theorem applied to a one-page crawl whose only
fetch returns a non-HTML content type. -/
theorem c1_amended_witness :
    scrapePageM c1wEnv false "w.test" "https://w.test/" = .ok none ∨
      "https://w.test/" ∈ c1wOut.visited :=
  c1_amended c1wEnv false "w.test" (UrlM.web "https" "w.test" "" "" "") 1
    "https://w.test/" c1wOut (by decide) "https://w.test/" (by decide)

/-- C2, counterexample: the claim that escalation to the rendered strategy
happens only on a blocking-signal error on the seed page, with any other
static-phase exception propagating directly, is false.  Here the static
fetch of the seed throws a plain HTTP 500 transport error (no blocking
signal), yet the orchestrator escalates (flag `true`) and the job succeeds
with the rendered strategy instead of propagating the 500 error. -/
theorem c2_counterexample :
    c2Env.staticFetch "https://c2.test/" =
      .failure (.rawError "Request failed with status code 500" none (some 500)) ∧
    scrapeRunT c2Env 1 "https://c2.test/" =
      some (true, .ok
        { siteTitle := "OK"
          baseUrl := "https://c2.test"
          scrapedAt := "T"
          totalPages := 1
          pages := [c2Page] }) :=
  ⟨rfl, by decide⟩

/-- C2 (amended): the orchestrator escalates from the static strategy to the
rendered strategy — clearing all visited state and restarting the traversal
— if and only if the static phase threw ANY exception; no static-phase
exception propagates directly.  Escalation happens at most once, never in
the reverse direction, and on escalation the caller sees the rendered
phase's outcome (its error translated once at the outer boundary), the
static phase's error being discarded. -/
theorem c2_amended :
    (∀ (env : CrawlEnv) (fuel : Nat) (seedUrl sc h p q f : String) (pages : List PageData),
      parseAbs seedUrl = some (.web sc h p q f) →
      strHas h "leetcode.com" = false →
      crawlPagesM env false h (UrlM.web sc h "" "" "") fuel seedUrl = some (.ok pages) →
      scrapeRunT env fuel seedUrl = some (false, .ok (mkSite env (sc ++ "://" ++ h) pages))) ∧
    (∀ (env : CrawlEnv) (fuel : Nat) (seedUrl sc h p q f : String) (e : JsError),
      parseAbs seedUrl = some (.web sc h p q f) →
      strHas h "leetcode.com" = false →
      crawlPagesM env false h (UrlM.web sc h "" "" "") fuel seedUrl = some (.error e) →
      scrapeRunT env fuel seedUrl =
        (match crawlPagesM env true h (UrlM.web sc h "" "" "") fuel seedUrl with
         | none => none
         | some (.ok pages) => some (true, .ok (mkSite env (sc ++ "://" ++ h) pages))
         | some (.error e2) => some (true, .error (scrapeCatchMap e2)))) := by
  constructor
  · intro env fuel seedUrl sc h p q f pages hparse hlc hph1
    rw [scrapeRunT, hparse]
    simp only [hlc, Bool.false_eq_true, if_false, hph1]
  · intro env fuel seedUrl sc h p q f e hparse hlc hph1
    rw [scrapeRunT, hparse]
    simp only [hlc, Bool.false_eq_true, if_false, hph1]

/-- C2 witness: the amended theorem applied to the 500-error environment,
showing the escalated run's outcome is the rendered phase's result. -/
theorem c2_amended_witness :
    scrapeRunT c2Env 1 "https://c2.test/" =
      some (true, .ok (mkSite c2Env ("https" ++ "://" ++ "c2.test") [c2Page])) := by
  rw [c2_amended.2 c2Env 1 "https://c2.test/" "https" "c2.test" "/" "" ""
    (.rawError "Request failed with status code 500" none (some 500))
    (by decide) (by decide) (by decide)]
  decide

/-- C3, counterexample: the claim that a second blocking signal under the
rendered strategy makes the job fail with AccessDenied (403) is false.  The
static seed response carries a Cloudflare marker (so the traversal is
re-run rendered), the rendered markup still carries a blocking signal — and
the job SUCCEEDS, returning the challenge page's markup as a scraped page. -/
theorem c3_counterexample :
    cfMarkers "<html>Just a moment...</html>" = true ∧
    puppetBlockMarkers "<html>Just a moment...</html>" = true ∧
    scrapeRunT c3Env 1 "https://c3.test/" =
      some (true, .ok
        { siteTitle := "Just a moment..."
          baseUrl := "https://c3.test"
          scrapedAt := "T"
          totalPages := 1
          pages := [c3Page] }) :=
  ⟨by decide, by decide, by decide⟩

/-- C3 (amended): if the static strategy's fetch of the seed page detects a
challenge marker, the traversal is re-run with the rendered strategy; if
the rendered strategy's markup still contains a blocking signal, that
markup is nevertheless returned and scraped, and the job succeeds with the
challenge page as its single PageResult (for a one-page job) — no
AccessDenied error is raised from a rendered-phase blocking signal. -/
theorem c3_amended (env : CrawlEnv) (fuel : Nat)
    (seedUrl sc hst p q f ct body body2 : String) (d d2 : Doc)
    (hparse : parseAbs seedUrl = some (.web sc hst p q f))
    (hlc : strHas hst "leetcode.com" = false)
    (hmax : env.maxPagesOpt = 1)
    (hsf : env.staticFetch seedUrl = .response ct body d)
    (hct : strHas ct "text/html" = true)
    (hcf : cfMarkers body = true)
    (hbr : env.browserAvailable = true)
    (hpp : env.puppet seedUrl = .content body2 d2)
    (_hblk : puppetBlockMarkers body2 = true)
    (hne : body2 ≠ "") :
    scrapeRunT env (fuel + 1) seedUrl =
      some (true, .ok (mkSite env (sc ++ "://" ++ hst)
        [buildPageData hst (UrlM.web sc hst p q f) seedUrl d2])) := by
  have hsp1 : scrapePageM env false hst seedUrl =
      .error (.rawError "Cloudflare protection detected" none none) := by
    simp [scrapePageM, scrapeWithAxiosM, hsf, hct, hcf]
  have hph1 : crawlPagesM env false hst (UrlM.web sc hst "" "" "") (fuel + 1) seedUrl =
      some (.error (.rawError "Cloudflare protection detected" none none)) := by
    simp [crawlPagesM, crawlLoopSt, hmax, effMaxPages, hsp1, crawlCatchMap, respStatusOf]
  have hsp2 : scrapePageM env true hst seedUrl =
      .ok (some (buildPageData hst (UrlM.web sc hst p q f) seedUrl d2)) := by
    simp [scrapePageM, scrapeWithPuppeteerM, hbr, hpp, Except.map, hne, hparse]
  have hph2 : crawlPagesM env true hst (UrlM.web sc hst "" "" "") (fuel + 1) seedUrl =
      some (.ok [buildPageData hst (UrlM.web sc hst p q f) seedUrl d2]) := by
    simp [crawlPagesM, crawlLoopSt, hmax, effMaxPages, hsp2]
  simp only [scrapeRunT, hparse, hlc, Bool.false_eq_true, if_false, hph1, hph2]

/-- C3 witness: the amended theorem applied to the concrete challenge-page
environment. -/
theorem c3_amended_witness :
    scrapeRunT c3Env 1 "https://c3.test/" =
      some (true, .ok (mkSite c3Env ("https" ++ "://" ++ "c3.test")
        [buildPageData "c3.test" (UrlM.web "https" "c3.test" "/" "" "") "https://c3.test/"
          c3ChDoc])) :=
  c3_amended c3Env 0 "https://c3.test/" "https" "c3.test" "/" "" "" "text/html"
    "<html>Just a moment...</html>" "<html>Just a moment...</html>" [] c3ChDoc
    (by decide) (by decide) rfl rfl (by decide) (by decide) rfl rfl (by decide) (by decide)

/-- C4 (confirmed): when a dequeued page's fetch throws, the run fails
immediately if and only if no page has yet succeeded and the pending queue
is that moment empty, surfacing the AccessDenied AppError for an HTTP 403
response, the RateLimited AppError for an HTTP 429 response and the
underlying error otherwise; in every other situation the URL is marked
visited and traversal continues with the remaining queue. -/
theorem c4_failure_policy (env : CrawlEnv) (up : Bool) (domain : String) (baseU : UrlM)
    (fuel : Nat) (url : String) (rest visited : List String) (pages : List PageData)
    (attempts : List String) (e : JsError)
    (hnv : visited.contains url = false)
    (hcap : pages.length < effMaxPages env.maxPagesOpt)
    (herr : scrapePageM env up domain url = .error e) :
    crawlLoopSt env up domain baseU (fuel + 1) (url :: rest) visited pages attempts =
      (if pages = [] ∧ rest = [] then
        some ⟨.error (crawlCatchMap e), visited ++ [url], attempts ++ [url]⟩
      else crawlLoopSt env up domain baseU fuel rest (visited ++ [url]) pages
        (attempts ++ [url])) ∧
    (respStatusOf e = some 403 →
      crawlCatchMap e =
        .appError "Access denied (403). This website blocks automated scraping requests." 403) ∧
    (respStatusOf e = some 429 →
      crawlCatchMap e = .appError "Too many requests (429). Please try again later." 429) ∧
    (respStatusOf e ≠ some 403 → respStatusOf e ≠ some 429 → crawlCatchMap e = e) := by
  refine ⟨?_, ?_, ?_, ?_⟩
  · conv_lhs => rw [crawlLoopSt]
    rw [if_neg (Nat.not_le.mpr hcap)]
    simp only [hnv, Bool.false_eq_true, if_false, herr]
    have hl : (pages.length = 0 ∧ rest.length = 0) ↔ (pages = [] ∧ rest = []) := by
      simp [List.length_eq_zero]
    by_cases hc : pages = [] ∧ rest = []
    · rw [if_pos (hl.mpr hc), if_pos hc]
    · rw [if_neg (fun hx => hc (hl.mp hx)), if_neg hc]
  · intro h403
    rw [crawlCatchMap, if_pos h403]
  · intro h429
    rw [crawlCatchMap]
    rw [if_neg ?_, if_pos h429]
    rw [h429]
    simp
  · intro h403 h429
    rw [crawlCatchMap, if_neg h403, if_neg h429]

/-- C4 witness: the policy applied to a seed-only job whose fetch fails with
an HTTP 403 — the run fails immediately with the AccessDenied AppError. -/
theorem c4_failure_policy_witness :
    crawlLoopSt c4wEnv false "c4w.test" (UrlM.web "https" "c4w.test" "" "" "") 1
      ["https://c4w.test/"] [] [] [] =
      some ⟨.error (.appError
          "Access denied (403). This website blocks automated scraping requests." 403),
        ["https://c4w.test/"], ["https://c4w.test/"]⟩ := by
  have h := (c4_failure_policy c4wEnv false "c4w.test" (UrlM.web "https" "c4w.test" "" "" "")
    0 "https://c4w.test/" [] [] [] []
    (.rawError "Request failed with status code 403" none (some 403))
    (by decide) (by decide) (by decide)).1
  simpa [crawlCatchMap, respStatusOf] using h

/-- C5, counterexample: the claim that a seed DNS failure (with an empty
queue) yields the NotFound error with status hint 400 is false.  The DNS
error triggers the rendered-strategy retry; with no browser runtime
available the error reaching the outer boundary is the raw browser error,
translated into the generic 500 failure — not NotFound(400). -/
theorem c5_counterexample :
    c5Env.staticFetch "https://c5.test/" =
      .failure (.rawError "getaddrinfo ENOTFOUND c5.test" (some "ENOTFOUND") none) ∧
    scrapeRun c5Env 1 "https://c5.test/" =
      some (.error (.appError "Failed to scrape the website. Please try again." 500)) ∧
    scrapeRun c5Env 1 "https://c5.test/" ≠
      some (.error (.appError "Website not found. Please check the URL." 400)) :=
  ⟨rfl, by decide, by decide⟩

/-- C5 (amended): at the orchestrator's outer boundary an already-translated
AppError passes through unchanged; but a DNS resolution error on the static
seed fetch does not surface as NotFound — it triggers the rendered-strategy
retry, and the boundary translates the RENDERED phase's error, so with no
browser runtime available the job yields the generic TransportFailure
AppError with status hint 500. -/
theorem c5_amended :
    (∀ (msg : String) (status : Nat),
      scrapeCatchMap (.appError msg status) = .appError msg status) ∧
    (∀ (env : CrawlEnv) (fuel : Nat) (seedUrl sc hst p q f m : String),
      parseAbs seedUrl = some (.web sc hst p q f) →
      strHas hst "leetcode.com" = false →
      0 < effMaxPages env.maxPagesOpt →
      env.staticFetch seedUrl = .failure (.rawError m (some "ENOTFOUND") none) →
      env.browserAvailable = false →
      scrapeRunT env (fuel + 1) seedUrl =
        some (true, .error (.appError "Failed to scrape the website. Please try again." 500))) := by
  constructor
  · intro msg status
    rw [scrapeCatchMap]
  · intro env fuel seedUrl sc hst p q f m hparse hlc hmax hsf hbr
    have hne0 : effMaxPages env.maxPagesOpt ≠ 0 := Nat.pos_iff_ne_zero.mp hmax
    have hsp1 : scrapePageM env false hst seedUrl =
        .error (.rawError m (some "ENOTFOUND") none) := by
      simp [scrapePageM, scrapeWithAxiosM, hsf]
    have hph1 : crawlPagesM env false hst (UrlM.web sc hst "" "" "") (fuel + 1) seedUrl =
        some (.error (.rawError m (some "ENOTFOUND") none)) := by
      simp [crawlPagesM, crawlLoopSt, hne0, hsp1, crawlCatchMap, respStatusOf]
    have hsp2 : scrapePageM env true hst seedUrl =
        .error (.rawError "Browser not available" none none) := by
      simp [scrapePageM, scrapeWithPuppeteerM, hbr, Except.map]
    have hph2 : crawlPagesM env true hst (UrlM.web sc hst "" "" "") (fuel + 1) seedUrl =
        some (.error (.rawError "Browser not available" none none)) := by
      simp [crawlPagesM, crawlLoopSt, hne0, hsp2, crawlCatchMap, respStatusOf]
    have hmap : scrapeCatchMap (.rawError "Browser not available" none none) =
        .appError "Failed to scrape the website. Please try again." 500 := by
      simp [scrapeCatchMap, strHas, occursChs, startsL]
    simp only [scrapeRunT, hparse, hlc, Bool.false_eq_true, if_false, hph1, hph2, hmap]

/-- C5 witness: the amended theorem applied to the concrete DNS-failure
environment. -/
theorem c5_amended_witness :
    scrapeRunT c5Env 1 "https://c5.test/" =
      some (true, .error (.appError "Failed to scrape the website. Please try again." 500)) :=
  c5_amended.2 c5Env 0 "https://c5.test/" "https" "c5.test" "/" "" ""
    "getaddrinfo ENOTFOUND c5.test" (by decide) (by decide) (by decide) rfl rfl

/-- C6 (confirmed): the extracted body content is exactly the paragraphs of
the chrome-pruned document whose trimmed text length is strictly between 20
and 5000, in document order, capped at 100; and on Scenario A's markup the
title is "Hello" and the content is exactly the one long paragraph (the
5-character paragraph is excluded). -/
theorem c6_content_extraction :
    (∀ d : Doc, extractContent d =
      (((taggedElems "p" (pruneChrome d)).map (fun n => strTrim (nodeText n))).filter
        (fun t => decide (20 < strLen t ∧ strLen t < 5000))).take 100) ∧
    extractTitle scenarioA = "Hello" ∧
    extractContent scenarioA =
      ["This paragraph is definitely over twenty characters long."] := by
  refine ⟨?_, by decide, by decide⟩
  intro d
  rw [extractContent, contentParagraphs_eq_filter]

/-- C7 (confirmed): image extraction is capped at 50, never emits an entry
matching the tracking-pixel heuristic, and on Scenario C's markup (at page
`https://example.com/about`) the pixel-gif image is excluded, `/logo.png`
resolves to `https://example.com/logo.png` keeping only the first of the
two raw-duplicate entries, and the lazy `data-src` fallback resolves too. -/
theorem c7_image_extraction :
    (∀ (d : Doc) (pu : UrlM), (extractImages d pu).length ≤ 50) ∧
    (∀ (d : Doc) (pu : UrlM) (img : Image),
      img ∈ extractImages d pu → isTrackingPixel img.src = false) ∧
    parseAbs "https://example.com/about" = some puAbout ∧
    extractImages scenarioC puAbout =
      [⟨"https://example.com/logo.png", "Logo"⟩, ⟨"https://example.com/ds.png", ""⟩] := by
  refine ⟨?_, ?_, by decide, by decide⟩
  · intro d pu
    exact List.length_take_le 50 _
  · intro d pu img hmem
    rw [extractImages] at hmem
    exact imagesLoop_no_tracking pu _ [] [] (by intro i hi; simp at hi) img
      (List.mem_of_mem_take hmem)

/-- C7 witness: the no-tracking-pixel conjunct applied to the logo entry of
Scenario C. -/
theorem c7_image_extraction_witness :
    isTrackingPixel "https://example.com/logo.png" = false :=
  c7_image_extraction.2.1 scenarioC puAbout ⟨"https://example.com/logo.png", "Logo"⟩
    (by decide)

/-- C8, counterexample: the claim that every SiteResult — including one
produced by the site-specific adapter — satisfies `externalLinks.length ≤
50` is false: a LeetCode profile whose API payload lists 51 websites yields
an adapter page with 51 external links. -/
theorem c8_counterexample :
    (scrapeLeetCode c8Api "https://leetcode.com/u/alice/"
        (UrlM.web "https" "leetcode.com" "/u/alice/" "" "") "T").map
      (fun s => s.pages.map (fun p => p.externalLinks.length)) = .ok [51] := by
  decide

/-- C8 (amended): every crawl-produced page list respects the caps — at most
`maxPages` (effective) pages, and per page headings ≤ 50, content ≤ 100,
images ≤ 50, internalLinks ≤ 100, externalLinks ≤ 50; the adapter-produced
SiteResult has exactly one page (within the always-positive effective page
cap) respecting the headings/images/internalLinks caps, but its content and
externalLinks are uncapped API passthroughs. -/
theorem c8_amended :
    (∀ (env : CrawlEnv) (up : Bool) (domain : String) (baseU : UrlM) (fuel : Nat)
      (startUrl : String) (r : List PageData),
      crawlPagesM env up domain baseU fuel startUrl = some (.ok r) →
      r.length ≤ effMaxPages env.maxPagesOpt ∧ ∀ p ∈ r, pageCapsOk p) ∧
    (∀ (api : LCApi) (url : String) (pu : UrlM) (now : String) (site : SiteResult),
      scrapeLeetCode api url pu now = .ok site →
      site.pages.length = 1 ∧ ∀ p ∈ site.pages,
        p.headings.length ≤ 50 ∧ p.images.length ≤ 50 ∧ p.internalLinks.length ≤ 100) ∧
    (∀ n : Nat, 1 ≤ effMaxPages n) := by
  refine ⟨?_, ?_, ?_⟩
  · intro env up domain baseU fuel startUrl r h
    rw [crawlPagesM] at h
    cases hl : crawlLoopSt env up domain baseU fuel [startUrl] [] [] [] with
    | none =>
      rw [hl] at h
      simp at h
    | some out =>
      rw [hl] at h
      simp only [] at h
      cases hres : out.result with
      | error e =>
        rw [hres] at h
        simp at h
      | ok pages =>
        rw [hres] at h
        simp only [] at h
        split at h
        · simp at h
        · simp only [Option.some.injEq, Except.ok.injEq] at h
          rw [← h]
          exact crawlLoopSt_caps env up domain baseU fuel [startUrl] [] [] [] out pages hl
            (by simp) (by intro p hp; simp at hp) hres
  · intro api url pu now site h
    rw [scrapeLeetCode.eq_def] at h
    cases hu : lcUsername ((splitSlash pu.pathname).filter (fun s => s ≠ "")) with
    | none =>
      simp only [hu] at h
      simp at h
    | some uname =>
      simp only [hu] at h
      cases api with
      | failure e =>
        cases e with
        | appError m s => simp at h
        | rawError m c rs => simp at h
      | success u =>
        cases u with
        | none => simp at h
        | some user =>
          simp only [Except.ok.injEq] at h
          rw [← h]
          constructor
          · rfl
          · intro p hp
            simp at hp
            rw [hp]
            refine ⟨by simp, ?_, by simp⟩
            by_cases ha : user.profile.userAvatar = ""
            · simp [ha]
            · simp [ha]
  · intro n
    rw [effMaxPages]
    by_cases hn : n = 0
    · simp [hn]
    · simp [hn]
      exact Nat.one_le_iff_ne_zero.mpr hn

/-- C8 witness: the crawl-caps conjunct applied to a one-page rendered crawl. -/
theorem c8_amended_witness :
    ([c2Page] : List PageData).length ≤ effMaxPages c2Env.maxPagesOpt :=
  (c8_amended.1 c2Env true "c2.test" (UrlM.web "https" "c2.test" "" "" "") 1
    "https://c2.test/" [c2Page] (by decide)).1

/-- C9, counterexample: the claim that every externalLinks entry — including
in an adapter-produced SiteResult — is an absolute http(s) URL whose host
differs from the job's base domain is false: the adapter passes the API's
`websites` list through unvalidated, and here it contains a URL whose host
IS the base domain `leetcode.com`. -/
theorem c9_counterexample :
    (scrapeLeetCode c9Api "https://leetcode.com/u/alice/"
        (UrlM.web "https" "leetcode.com" "/u/alice/" "" "") "T").map
      (fun s => s.pages.map (fun p => p.externalLinks.map
        (fun l => (parseAbs l).map UrlM.host))) =
      .ok [[some "leetcode.com"]] := by
  decide

/-- C9 (amended): every entry of a crawl-extracted externalLinks list is the
serialisation of an absolute web URL with scheme http or https whose host
differs from the job's base domain; the site-specific adapter instead
copies the API profile's `websites` list into externalLinks unvalidated. -/
theorem c9_amended :
    (∀ (d : Doc) (pu : UrlM) (domain s : String),
      s ∈ extractExternalLinks d pu domain →
      ∃ sc h p q fr, s = (UrlM.web sc h p q fr).href ∧
        (sc = "http" ∨ sc = "https") ∧ h ≠ domain) ∧
    (∀ (user : LCUser) (url : String) (pu : UrlM) (now : String) (site : SiteResult),
      scrapeLeetCode (.success (some user)) url pu now = .ok site →
      site.pages.map PageData.externalLinks = [user.profile.websites]) := by
  constructor
  · intro d pu domain s hs
    rw [extractExternalLinks] at hs
    exact externalLoop_spec pu domain _ [] [] (by intro t ht; simp at ht) s
      (List.mem_of_mem_take hs)
  · intro user url pu now site h
    rw [scrapeLeetCode] at h
    cases hu : lcUsername ((splitSlash pu.pathname).filter (fun s => s ≠ "")) with
    | none =>
      rw [hu] at h
      simp at h
    | some uname =>
      rw [hu] at h
      simp only [Except.ok.injEq] at h
      rw [← h]
      rfl

/-- C9 witness: the crawl conjunct applied to a page with one external
anchor. -/
theorem c9_amended_witness :
    ∃ sc h p q fr, "https://ext.example/x" = (UrlM.web sc h p q fr).href ∧
      (sc = "http" ∨ sc = "https") ∧ h ≠ "example.com" :=
  c9_amended.1 c9wDoc puAbout "example.com" "https://ext.example/x" (by decide)

/-- C10 (confirmed): in the `scrapePage` pipeline the images, internal links
and external links (and body content) are extracted from the chrome-pruned
document that `extractContent`'s removal produced, and pruning keeps exactly
the elements with no removal-selector match on themselves or any ancestor —
so every img and anchor inside a removed element is absent from the page's
images, internalLinks and externalLinks, and no removal-matching element
survives. -/
theorem c10_prune_before_link_extraction (domain : String) (pu : UrlM) (url : String)
    (d : Doc) :
    (buildPageData domain pu url d).images = extractImages (pruneChrome d) pu ∧
    (buildPageData domain pu url d).internalLinks =
      extractInternalLinks (pruneChrome d) pu domain ∧
    (buildPageData domain pu url d).externalLinks =
      extractExternalLinks (pruneChrome d) pu domain ∧
    (buildPageData domain pu url d).content = contentParagraphs (pruneChrome d) ∧
    forestTA (pruneChrome d) = forestKeptTA d ∧
    (∀ x ∈ forestTA (pruneChrome d), chromeMatch x.1 x.2 = false) := by
  refine ⟨rfl, rfl, rfl, rfl, pruneForest_ta d, ?_⟩
  intro x hx
  rw [pruneChrome, pruneForest_ta d] at hx
  exact forestKeptTA_not_chrome d x hx
